import Mathlib

/-!
Verification of the polytope repository's vertex-to-show export pipeline
and its HTTP boundary glue (src/src/server.js, src/index.js).

Coordinates are modelled as rationals: the JavaScript/Python code computes
with IEEE doubles, and the spec's guarantees are stated "up to
floating-point tolerance"; over ℚ the same arithmetic is exact, so the
bounds hold with no tolerance term.

The export pipeline itself (Vertex Selector, Bounding-Box Normalizer,
Trajectory Synthesizer, Show Document Builder, Archive Packager) lives in
src/python/export_vertices.py, which is not part of the provided sources;
only its caller (server.js) is. Those components are therefore modelled
from the spec, and each such definition carries a doc comment saying so.
-/

/-- A 3-D point with rational coordinates, modelling a `[x, y, z]`
number triple of the JavaScript/Python code. -/
structure Point3 where
  x : ℚ
  y : ℚ
  z : ℚ
deriving Repr, DecidableEq

/-- Modelled from the spec: the error taxonomy of §7 for the export
pipeline (InvalidIndex, EmptyInput, NoAgents, SerializationFailure,
IOFailure); the pipeline code itself is in the missing
src/python/export_vertices.py. -/
inductive PipeError where
  | invalidIndex
  | emptyInput
  | noAgents
  | serializationFailure
  | ioFailure
deriving Repr, DecidableEq

/-- An axis-aligned bounding box, per-axis min and max. -/
structure BoundingBox where
  minX : ℚ
  maxX : ℚ
  minY : ℚ
  maxY : ℚ
  minZ : ℚ
  maxZ : ℚ
deriving Repr, DecidableEq

/-- Left fold of `min` over a list, seeded with `a`. -/
def foldMin (a : ℚ) (l : List ℚ) : ℚ := l.foldl min a

/-- Left fold of `max` over a list, seeded with `a`. -/
def foldMax (a : ℚ) (l : List ℚ) : ℚ := l.foldl max a

/-- Modelled from the spec: `computeBoundingBox(points)` of §4.2 of the
missing export script; fails with `EmptyInput` on an empty point list,
otherwise returns the per-axis min/max of the points. -/
def computeBoundingBox (points : List Point3) : Except PipeError BoundingBox :=
  match points with
  | [] => .error .emptyInput
  | p :: ps =>
      .ok ⟨foldMin p.x (ps.map Point3.x), foldMax p.x (ps.map Point3.x),
           foldMin p.y (ps.map Point3.y), foldMax p.y (ps.map Point3.y),
           foldMin p.z (ps.map Point3.z), foldMax p.z (ps.map Point3.z)⟩

/-- The fixed target flight volume: X, Y in [-20, 20] m, Z in [0, 50] m. -/
structure TargetVolume where
  xMin : ℚ
  xMax : ℚ
  yMin : ℚ
  yMax : ℚ
  zMin : ℚ
  zMax : ℚ
deriving Repr, DecidableEq

/-- The process-wide target volume constants of §6. -/
def targetVolume : TargetVolume := ⟨-20, 20, -20, 20, 0, 50⟩

/-- The normalization transform: one uniform XY scale, independent Z
scale, per-axis offsets, with output = input * scale + offset. -/
structure NormalizationTransform where
  scaleXY : ℚ
  scaleZ : ℚ
  offsetX : ℚ
  offsetY : ℚ
  offsetZ : ℚ
deriving Repr, DecidableEq

/-- Modelled from the spec (§4.2): the shared XY scale factor. If both
XY extents are zero it is 1; otherwise it is the min of targetSpan/extent
over the axes with non-zero extent. -/
def scaleXYOf (box : BoundingBox) (tv : TargetVolume) : ℚ :=
  if box.maxX - box.minX = 0 ∧ box.maxY - box.minY = 0 then 1
  else if box.maxX - box.minX = 0 then (tv.yMax - tv.yMin) / (box.maxY - box.minY)
  else if box.maxY - box.minY = 0 then (tv.xMax - tv.xMin) / (box.maxX - box.minX)
  else min ((tv.xMax - tv.xMin) / (box.maxX - box.minX))
           ((tv.yMax - tv.yMin) / (box.maxY - box.minY))

/-- Modelled from the spec (§4.2): X offset centering the scaled extent
at the midpoint of the target X range. -/
def offsetXOf (box : BoundingBox) (tv : TargetVolume) : ℚ :=
  (tv.xMin + tv.xMax) / 2 - scaleXYOf box tv * ((box.minX + box.maxX) / 2)

/-- Modelled from the spec (§4.2): Y offset centering the scaled extent
at the midpoint of the target Y range. -/
def offsetYOf (box : BoundingBox) (tv : TargetVolume) : ℚ :=
  (tv.yMin + tv.yMax) / 2 - scaleXYOf box tv * ((box.minY + box.maxY) / 2)

/-- Modelled from the spec (§4.2): Z scale; zero when the Z extent is
zero, else targetZSpan / extentZ. -/
def scaleZOf (box : BoundingBox) (tv : TargetVolume) : ℚ :=
  if box.maxZ - box.minZ = 0 then 0 else (tv.zMax - tv.zMin) / (box.maxZ - box.minZ)

/-- Modelled from the spec (§4.2): Z offset; the target Z midpoint when
the extent is zero, else it maps min.z to targetZMin. -/
def offsetZOf (box : BoundingBox) (tv : TargetVolume) : ℚ :=
  if box.maxZ - box.minZ = 0 then (tv.zMin + tv.zMax) / 2
  else tv.zMin - scaleZOf box tv * box.minZ

/-- Modelled from the spec (§4.2): `computeTransform(box, targetVolume)`
of the missing export script. -/
def computeTransform (box : BoundingBox) (tv : TargetVolume) : NormalizationTransform :=
  ⟨scaleXYOf box tv, scaleZOf box tv, offsetXOf box tv, offsetYOf box tv, offsetZOf box tv⟩

/-- Modelled from the spec (§4.2): `apply(transform, points)` of the
missing export script — out = in * scale + offset, per axis, per point. -/
def applyTransform (t : NormalizationTransform) (points : List Point3) : List Point3 :=
  points.map fun p =>
    ⟨t.scaleXY * p.x + t.offsetX, t.scaleXY * p.y + t.offsetY, t.scaleZ * p.z + t.offsetZ⟩

/-- Modelled from the spec (§3): the Vertex Selector's result — the
compacted vertex list and the old-to-new index remap. -/
structure SelectionResult where
  usedVertices : List Point3
  indexMap : List (ℕ × ℕ)
deriving Repr, DecidableEq

/-- The distinct indices referenced by the faces, in first-seen order. -/
def collectIndices (faces : List (List ℕ)) : List ℕ :=
  faces.flatten.foldl (fun acc i => if i ∈ acc then acc else acc ++ [i]) []

/-- Modelled from the spec (§4.1): `select(vertices, faces)` of the
missing export script. Empty faces fall back to the whole vertex list;
an out-of-range face index is an InvalidIndex error; otherwise the
distinct referenced indices, in first-seen order, are compacted. -/
def select (vertices : List Point3) (faces : List (List ℕ)) :
    Except PipeError SelectionResult :=
  if faces.isEmpty then
    .ok ⟨vertices, (List.range vertices.length).map fun i => (i, i)⟩
  else if faces.flatten.all fun i => decide (i < vertices.length) then
    .ok ⟨(collectIndices faces).filterMap fun i => vertices[i]?,
         (collectIndices faces).enum.map fun pr => (pr.2, pr.1)⟩
  else .error .invalidIndex

/-- Modelled from the spec (§4.3): a stationary trajectory — one hover
position plus the show's frame count and fps. -/
structure Trajectory where
  position : Point3
  fps : ℕ
  frameCount : ℕ
deriving Repr, DecidableEq

/-- One aerial agent: zero-based id and its stationary trajectory. -/
structure Agent where
  id : ℕ
  trajectory : Trajectory
deriving Repr, DecidableEq

/-- Modelled from the spec (§3): the assembled show document. -/
structure ShowDocument where
  fps : ℕ
  frameCount : ℕ
  durationSeconds : ℚ
  agents : List Agent
deriving Repr, DecidableEq

/-- Process-wide constant (§6): 4 frames per second. -/
def fps : ℕ := 4

/-- Process-wide constant (§6): 100 timeframes. -/
def frameCount : ℕ := 100

/-- Modelled from the spec (§4.3): `synthesize(point, fps, frameCount)`
of the missing export script; no failure modes. -/
def synthesize (point : Point3) (fps0 frameCount0 : ℕ) : Trajectory :=
  ⟨point, fps0, frameCount0⟩

/-- Modelled from the spec (§4.4): `build(normalizedPoints, fps,
frameCount)` of the missing export script; NoAgents on an empty point
list, else zero-based ids in list order and durationSeconds =
frameCount / fps. -/
def build (normalizedPoints : List Point3) (fps0 frameCount0 : ℕ) :
    Except PipeError ShowDocument :=
  if normalizedPoints.isEmpty then .error .noAgents
  else .ok ⟨fps0, frameCount0, (frameCount0 : ℚ) / (fps0 : ℚ),
            normalizedPoints.enum.map fun pr => ⟨pr.1, synthesize pr.2 fps0 frameCount0⟩⟩

/-- Modelled from the spec (§4.5): the packager's success summary. -/
structure ExportSummary where
  path : String
  agentCount : ℕ
  durationSeconds : ℚ
deriving Repr, DecidableEq

/-- Modelled from the spec (§4.5): `pack(document, outputPath)` of the
missing export script. Over ℚ every number is finite, so the
SerializationFailure branch for non-finite coordinates cannot fire; the
filesystem outcome is abstracted by `ioOk`. Besides the result it
returns the list of files present at outputPath afterwards — empty on
failure, since per §7 a failed pack leaves no partial file. -/
def pack (doc : ShowDocument) (outputPath : String) (ioOk : Bool) :
    Except PipeError ExportSummary × List String :=
  if ioOk then (.ok ⟨outputPath, doc.agents.length, doc.durationSeconds⟩, [outputPath])
  else (.error .ioFailure, [])

/-- The pipeline stages, in their canonical §2 order (the Trajectory
Synthesizer is folded into the Builder stage here, as `build` invokes
`synthesize` per point). -/
inductive Stage where
  | selectStage
  | normalizeStage
  | buildStage
  | packStage
deriving Repr, DecidableEq

/-- The full canonical stage sequence. -/
def allStages : List Stage := [.selectStage, .normalizeStage, .buildStage, .packStage]

/-- Modelled from the spec (§2, §7): the strictly sequential fail-fast
export pipeline of the missing export script. Returns the result, the
files written at outputPath, and the stages that were executed. -/
def runPipeline (vertices : List Point3) (faces : List (List ℕ)) (outputPath : String)
    (ioOk : Bool) : Except PipeError ExportSummary × List String × List Stage :=
  match select vertices faces with
  | .error e => (.error e, [], [.selectStage])
  | .ok sel =>
    match computeBoundingBox sel.usedVertices with
    | .error e => (.error e, [], [.selectStage, .normalizeStage])
    | .ok box =>
      match build (applyTransform (computeTransform box targetVolume) sel.usedVertices)
          fps frameCount with
      | .error e => (.error e, [], [.selectStage, .normalizeStage, .buildStage])
      | .ok doc =>
        match pack doc outputPath ioOk with
        | (.error e, files) => (.error e, files, allStages)
        | (.ok s, files) => (.ok s, files, allStages)

/-- A JSON-ish value, for modelling the handler's response fields. -/
inductive JsonValue where
  | bool (b : Bool)
  | str (s : String)
  | num (q : ℚ)
deriving Repr, DecidableEq

/-- From src/src/server.js line 61: the output filename logic
`filename || 'vertices_show.skyc'` — an absent or empty (falsy) filename
gives the default. -/
def outputFileOf (filename : Option String) : String :=
  match filename with
  | none => "vertices_show.skyc"
  | some s => if s = "" then "vertices_show.skyc" else s

/-- From src/src/server.js lines 81-86: the JSON object sent on a
successful /export — success, filename (the absolute outputPath) and a
human-readable message; no other fields. -/
def exportSuccessResponse (outputPath outputFile : String) (nVertices : ℕ) :
    List (String × JsonValue) :=
  [("success", .bool true),
   ("filename", .str outputPath),
   ("message", .str ("Exported " ++ toString nVertices ++ " vertices to output/" ++ outputFile))]

/-- Outcome of the `exec` call on the python export subprocess. -/
inductive ExecOutcome where
  | execError (stderrText : String)
  | execOk (stdoutText : String)
deriving Repr, DecidableEq

/-- A parsed /export request body: vertices plus the optional filename. -/
structure ExportRequestBody where
  vertices : List Point3
  filename : Option String
deriving Repr, DecidableEq

/-- An HTTP response of the handler: error object or success object. -/
inductive HttpResponse where
  | errorResp (status : ℕ) (msg : String)
  | successResp (fields : List (String × JsonValue))
deriving Repr, DecidableEq

/-- From src/src/server.js lines 57-92: the POST /export handler.
`parsed` is the result of JSON.parse on the request body (none when the
parse threw); `execRun` is the outcome the subprocess would report, and
is consulted only if the subprocess is started. Returns the response
together with whether the subprocess was started. -/
def handleExport (outputDir : String) (parsed : Option ExportRequestBody)
    (execRun : ExecOutcome) : HttpResponse × Bool :=
  match parsed with
  | none => (.errorResp 400 "Unexpected token in JSON", false)
  | some body =>
    let outputFile := outputFileOf body.filename
    let outputPath := outputDir ++ "/" ++ outputFile
    match execRun with
    | .execError st => (.errorResp 500 ("Export failed: " ++ st), true)
    | .execOk _ =>
        (.successResp (exportSuccessResponse outputPath outputFile body.vertices.length), true)

/-- The opaque conway-hart library result: name, positions, cells. -/
structure ConwayResult where
  name : String
  positions : List Point3
  cells : List (List ℕ)
deriving Repr, DecidableEq

/-- The viewer-facing polyhedron: name, vertices, faces. -/
structure Polyhedron where
  name : String
  vertices : List Point3
  faces : List (List ℕ)
deriving Repr, DecidableEq

/-- From src/index.js lines 14-21: generatePolyhedron relabels the
library result's fields without inspecting them. The external
conway-hart library is an opaque capability, modelled as a function
parameter returning none when the library throws. -/
def generatePolyhedron (conway : String → Option ConwayResult) (s : String) :
    Option Polyhedron :=
  (conway s).map fun result => ⟨result.name, result.positions, result.cells⟩

/-- A concrete stand-in library result used to instantiate witnesses. -/
def conwayCubeStub : String → Option ConwayResult :=
  fun _ => some ⟨"cube", [⟨1, 1, 1⟩, ⟨-1, -1, -1⟩], [[0, 1]]⟩

theorem foldMin_le_init (a : ℚ) (l : List ℚ) : foldMin a l ≤ a := by
  induction l generalizing a with
  | nil => simp [foldMin]
  | cons b t ih =>
      simp only [foldMin, List.foldl_cons]
      exact le_trans (ih (min a b)) (min_le_left a b)

theorem foldMin_le_mem (a b : ℚ) (l : List ℚ) (hb : b ∈ l) : foldMin a l ≤ b := by
  induction l generalizing a with
  | nil => cases hb
  | cons c t ih =>
      simp only [foldMin, List.foldl_cons]
      rcases List.mem_cons.mp hb with h | h
      · exact le_trans (foldMin_le_init (min a c) t) (h ▸ min_le_right a c)
      · exact ih (min a c) h

theorem init_le_foldMax (a : ℚ) (l : List ℚ) : a ≤ foldMax a l := by
  induction l generalizing a with
  | nil => simp [foldMax]
  | cons b t ih =>
      simp only [foldMax, List.foldl_cons]
      exact le_trans (le_max_left a b) (ih (max a b))

theorem mem_le_foldMax (a b : ℚ) (l : List ℚ) (hb : b ∈ l) : b ≤ foldMax a l := by
  induction l generalizing a with
  | nil => cases hb
  | cons c t ih =>
      simp only [foldMax, List.foldl_cons]
      rcases List.mem_cons.mp hb with h | h
      · exact le_trans (h ▸ le_max_right a c) (init_le_foldMax (max a c) t)
      · exact ih (max a c) h

theorem foldMin_all_eq (a : ℚ) (l : List ℚ) (h : ∀ b ∈ l, b = a) : foldMin a l = a := by
  induction l with
  | nil => rfl
  | cons c t ih =>
      have hc : c = a := h c (List.mem_cons_self c t)
      simp only [foldMin, List.foldl_cons, hc, min_self]
      exact ih fun b hb => h b (List.mem_cons_of_mem c hb)

theorem foldMax_all_eq (a : ℚ) (l : List ℚ) (h : ∀ b ∈ l, b = a) : foldMax a l = a := by
  induction l with
  | nil => rfl
  | cons c t ih =>
      have hc : c = a := h c (List.mem_cons_self c t)
      simp only [foldMax, List.foldl_cons, hc, max_self]
      exact ih fun b hb => h b (List.mem_cons_of_mem c hb)

theorem bbox_bounds (points : List Point3) (box : BoundingBox)
    (h : computeBoundingBox points = .ok box) :
    ∀ p ∈ points, box.minX ≤ p.x ∧ p.x ≤ box.maxX ∧ box.minY ≤ p.y ∧
      p.y ≤ box.maxY ∧ box.minZ ≤ p.z ∧ p.z ≤ box.maxZ := by
  match points with
  | [] => simp [computeBoundingBox] at h
  | q :: ps =>
      simp only [computeBoundingBox, Except.ok.injEq] at h
      subst h
      intro p hp
      rcases List.mem_cons.mp hp with hpq | hps
      · subst hpq
        exact ⟨foldMin_le_init _ _, init_le_foldMax _ _, foldMin_le_init _ _,
               init_le_foldMax _ _, foldMin_le_init _ _, init_le_foldMax _ _⟩
      · refine ⟨foldMin_le_mem _ _ _ ?_, mem_le_foldMax _ _ _ ?_,
                foldMin_le_mem _ _ _ ?_, mem_le_foldMax _ _ _ ?_,
                foldMin_le_mem _ _ _ ?_, mem_le_foldMax _ _ _ ?_⟩ <;>
          exact List.mem_map_of_mem _ hps

theorem bbox_const (p0 : Point3) (vs : List Point3) (hne : vs ≠ [])
    (hall : ∀ p ∈ vs, p = p0) :
    computeBoundingBox vs = .ok ⟨p0.x, p0.x, p0.y, p0.y, p0.z, p0.z⟩ := by
  match vs with
  | [] => exact absurd rfl hne
  | q :: ps =>
      have hq : q = p0 := hall q (List.mem_cons_self q ps)
      have hmem : ∀ f : Point3 → ℚ, ∀ b ∈ ps.map f, b = f p0 := by
        intro f b hb
        obtain ⟨p, hp, rfl⟩ := List.mem_map.mp hb
        rw [hall p (List.mem_cons_of_mem q hp)]
      simp only [computeBoundingBox, hq, Except.ok.injEq, BoundingBox.mk.injEq]
      exact ⟨foldMin_all_eq _ _ (hmem Point3.x), foldMax_all_eq _ _ (hmem Point3.x),
             foldMin_all_eq _ _ (hmem Point3.y), foldMax_all_eq _ _ (hmem Point3.y),
             foldMin_all_eq _ _ (hmem Point3.z), foldMax_all_eq _ _ (hmem Point3.z)⟩

theorem scaleXY_nonneg (box : BoundingBox) (hx : box.minX ≤ box.maxX)
    (hy : box.minY ≤ box.maxY) : 0 ≤ scaleXYOf box targetVolume := by
  unfold scaleXYOf targetVolume
  split_ifs with h1 h2 h3
  · norm_num
  · apply div_nonneg <;> [norm_num; linarith]
  · apply div_nonneg <;> [norm_num; linarith]
  · exact le_min (div_nonneg (by norm_num) (by linarith)) (div_nonneg (by norm_num) (by linarith))

theorem scaleXY_extentX (box : BoundingBox) (hx : box.minX ≤ box.maxX)
    (hy : box.minY ≤ box.maxY) :
    scaleXYOf box targetVolume * (box.maxX - box.minX) ≤ 40 := by
  unfold scaleXYOf targetVolume
  split_ifs with h1 h2 h3
  · rw [h1.1]; norm_num
  · rw [h2]; norm_num
  · rw [div_mul_cancel₀]
    · norm_num
    · exact h2
  · calc min ((20 - -20) / (box.maxX - box.minX)) ((20 - -20) / (box.maxY - box.minY)) *
          (box.maxX - box.minX)
        ≤ (20 - -20) / (box.maxX - box.minX) * (box.maxX - box.minX) :=
          mul_le_mul_of_nonneg_right (min_le_left _ _) (by linarith)
      _ = 40 := by rw [div_mul_cancel₀ _ h2]; norm_num

theorem scaleXY_extentY (box : BoundingBox) (hx : box.minX ≤ box.maxX)
    (hy : box.minY ≤ box.maxY) :
    scaleXYOf box targetVolume * (box.maxY - box.minY) ≤ 40 := by
  unfold scaleXYOf targetVolume
  split_ifs with h1 h2 h3
  · rw [h1.2]; norm_num
  · rw [div_mul_cancel₀]
    · norm_num
    · intro hc
      exact h1 ⟨h2, hc⟩
  · rw [h3]; norm_num
  · calc min ((20 - -20) / (box.maxX - box.minX)) ((20 - -20) / (box.maxY - box.minY)) *
          (box.maxY - box.minY)
        ≤ (20 - -20) / (box.maxY - box.minY) * (box.maxY - box.minY) :=
          mul_le_mul_of_nonneg_right (min_le_right _ _) (by linarith)
      _ = 40 := by rw [div_mul_cancel₀ _ h3]; norm_num

theorem affine_in_range (s mn mx v lo hi : ℚ) (hs : 0 ≤ s) (h1 : mn ≤ v) (h2 : v ≤ mx)
    (hb : s * (mx - mn) ≤ hi - lo) :
    lo ≤ s * v + ((lo + hi) / 2 - s * ((mn + mx) / 2)) ∧
    s * v + ((lo + hi) / 2 - s * ((mn + mx) / 2)) ≤ hi := by
  constructor <;>
    nlinarith [mul_le_mul_of_nonneg_left h1 hs, mul_le_mul_of_nonneg_left h2 hs]

theorem applied_z_in_range (box : BoundingBox) (v : ℚ) (h1 : box.minZ ≤ v)
    (h2 : v ≤ box.maxZ) :
    0 ≤ scaleZOf box targetVolume * v + offsetZOf box targetVolume ∧
    scaleZOf box targetVolume * v + offsetZOf box targetVolume ≤ 50 := by
  simp only [scaleZOf, offsetZOf, targetVolume]
  split_ifs with hz
  · norm_num
  · have hpos : 0 < box.maxZ - box.minZ :=
      lt_of_le_of_ne (by linarith) (fun hc => hz hc.symm)
    have hs : 0 ≤ (50 - 0 : ℚ) / (box.maxZ - box.minZ) :=
      div_nonneg (by norm_num) (le_of_lt hpos)
    have hcancel : (50 - 0 : ℚ) / (box.maxZ - box.minZ) * (box.maxZ - box.minZ) = 50 := by
      rw [div_mul_cancel₀ _ hz]
      norm_num
    constructor
    · have := mul_le_mul_of_nonneg_left h1 hs
      nlinarith
    · have := mul_le_mul_of_nonneg_left h2 hs
      nlinarith

theorem transform_const (p0 : Point3) :
    computeTransform ⟨p0.x, p0.x, p0.y, p0.y, p0.z, p0.z⟩ targetVolume =
      ⟨1, 0, -p0.x, -p0.y, 25⟩ := by
  have hs : scaleXYOf ⟨p0.x, p0.x, p0.y, p0.y, p0.z, p0.z⟩ targetVolume = 1 := by
    simp [scaleXYOf]
  have hz : scaleZOf ⟨p0.x, p0.x, p0.y, p0.y, p0.z, p0.z⟩ targetVolume = 0 := by
    simp [scaleZOf]
  simp only [computeTransform, NormalizationTransform.mk.injEq]
  refine ⟨hs, hz, ?_, ?_, ?_⟩
  · simp only [offsetXOf, hs]
    norm_num [targetVolume]
  · simp only [offsetYOf, hs]
    norm_num [targetVolume]
  · simp [offsetZOf, targetVolume]
    norm_num

theorem mem_foldl_dedup (l acc : List ℕ) (x : ℕ)
    (hx : x ∈ l.foldl (fun acc2 i => if i ∈ acc2 then acc2 else acc2 ++ [i]) acc) :
    x ∈ acc ∨ x ∈ l := by
  induction l generalizing acc with
  | nil => exact Or.inl hx
  | cons a t ih =>
      simp only [List.foldl_cons] at hx
      rcases ih _ hx with h | h
      · by_cases ha : a ∈ acc
        · rw [if_pos ha] at h
          exact Or.inl h
        · rw [if_neg ha] at h
          rcases List.mem_append.mp h with h2 | h2
          · exact Or.inl h2
          · exact Or.inr (List.mem_cons.mpr (Or.inl (List.mem_singleton.mp h2)))
      · exact Or.inr (List.mem_cons_of_mem a h)

theorem mem_collectIndices (faces : List (List ℕ)) (i : ℕ)
    (h : i ∈ collectIndices faces) : ∃ face ∈ faces, i ∈ face := by
  rcases mem_foldl_dedup faces.flatten [] i h with h2 | h2
  · cases h2
  · exact List.mem_flatten.mp h2

/-- C1: every coordinate of every point produced by the Bounding-Box
Normalizer's apply on a non-empty input point set lies within the closed
target volume: X and Y in [-20, 20], Z in [0, 50]. Exact over ℚ, so the
floating-point tolerance allowance is not needed. -/
theorem normalizer_apply_in_bounds (points : List Point3) (box : BoundingBox)
    (hbox : computeBoundingBox points = .ok box) (q : Point3)
    (hq : q ∈ applyTransform (computeTransform box targetVolume) points) :
    -20 ≤ q.x ∧ q.x ≤ 20 ∧ -20 ≤ q.y ∧ q.y ≤ 20 ∧ 0 ≤ q.z ∧ q.z ≤ 50 := by
  obtain ⟨p, hp, hqp⟩ := List.mem_map.mp hq
  obtain ⟨h1, h2, h3, h4, h5, h6⟩ := bbox_bounds points box hbox p hp
  have hx : box.minX ≤ box.maxX := le_trans h1 h2
  have hy : box.minY ≤ box.maxY := le_trans h3 h4
  have hs : 0 ≤ scaleXYOf box targetVolume := scaleXY_nonneg box hx hy
  have hbx : scaleXYOf box targetVolume * (box.maxX - box.minX) ≤ 20 - -20 := by
    have := scaleXY_extentX box hx hy
    linarith
  have hby : scaleXYOf box targetVolume * (box.maxY - box.minY) ≤ 20 - -20 := by
    have := scaleXY_extentY box hx hy
    linarith
  have hxr := affine_in_range (scaleXYOf box targetVolume) box.minX box.maxX p.x
    (-20) 20 hs h1 h2 hbx
  have hyr := affine_in_range (scaleXYOf box targetVolume) box.minY box.maxY p.y
    (-20) 20 hs h3 h4 hby
  have hzr := applied_z_in_range box p.z h5 h6
  subst hqp
  simp only [computeTransform] at *
  refine ⟨?_, ?_, ?_, ?_, hzr.1, hzr.2⟩
  · have := hxr.1
    unfold offsetXOf targetVolume at *
    linarith
  · have := hxr.2
    unfold offsetXOf targetVolume at *
    linarith
  · have := hyr.1
    unfold offsetYOf targetVolume at *
    linarith
  · have := hyr.2
    unfold offsetYOf targetVolume at *
    linarith

/-- Witness for C1 at the single input point (0,0,0), whose normalized
image is (0,0,25). -/
theorem normalizer_apply_in_bounds_witness :
    -20 ≤ (Point3.mk 0 0 25).x ∧ (Point3.mk 0 0 25).x ≤ 20 ∧
    -20 ≤ (Point3.mk 0 0 25).y ∧ (Point3.mk 0 0 25).y ≤ 20 ∧
    0 ≤ (Point3.mk 0 0 25).z ∧ (Point3.mk 0 0 25).z ≤ 50 :=
  normalizer_apply_in_bounds [⟨0, 0, 0⟩] ⟨0, 0, 0, 0, 0, 0⟩ rfl ⟨0, 0, 25⟩ (by
    norm_num [applyTransform, computeTransform, scaleXYOf, scaleZOf, offsetXOf,
      offsetYOf, offsetZOf, targetVolume])

/-- C2: every vertex in the Vertex Selector's usedVertices was referenced
by at least one face, and if the face list is empty, usedVertices is the
full original vertex list unchanged. -/
theorem selector_used_referenced (vertices : List Point3) (faces : List (List ℕ))
    (sel : SelectionResult) (h : select vertices faces = .ok sel) :
    (faces = [] → sel.usedVertices = vertices) ∧
    (faces ≠ [] → ∀ v ∈ sel.usedVertices,
      ∃ face ∈ faces, ∃ i ∈ face, vertices[i]? = some v) := by
  unfold select at h
  split_ifs at h with hemp hall
  · simp only [Except.ok.injEq] at h
    subst h
    constructor
    · intro
      rfl
    · intro hne
      exact absurd (List.isEmpty_iff.mp hemp) hne
  · simp only [Except.ok.injEq] at h
    subst h
    constructor
    · intro he
      rw [he] at hemp
      exact absurd rfl hemp
    · intro _ v hv
      obtain ⟨i, hi, hsome⟩ := List.mem_filterMap.mp hv
      obtain ⟨face, hface, hif⟩ := mem_collectIndices faces i hi
      exact ⟨face, hface, i, hif, hsome⟩

/-- Witness for C2: three vertices, one face [0,2]; the selected vertex
(2,2,2) is referenced by that face. -/
theorem selector_used_referenced_witness :
    ∃ face ∈ [[0, 2]], ∃ i ∈ face,
      ([Point3.mk 0 0 0, Point3.mk 1 1 1, Point3.mk 2 2 2] : List Point3)[i]? =
        some (Point3.mk 2 2 2) := by
  have h := selector_used_referenced [⟨0, 0, 0⟩, ⟨1, 1, 1⟩, ⟨2, 2, 2⟩] [[0, 2]]
    ⟨[⟨0, 0, 0⟩, ⟨2, 2, 2⟩], [(0, 0), (2, 1)]⟩ rfl
  exact h.2 (by decide) ⟨2, 2, 2⟩ (by decide)

/-- C4: for the fixed configuration fps = 4 and frameCount = 100, the
Show Document Builder computes durationSeconds = frameCount / fps = 25
exactly, and in particular not the README's literal 24.75. -/
theorem builder_duration_25 (pts : List Point3) (doc : ShowDocument)
    (h : build pts fps frameCount = .ok doc) :
    doc.durationSeconds = 25 ∧ doc.durationSeconds ≠ 24.75 := by
  unfold build at h
  split_ifs at h with hemp
  simp only [Except.ok.injEq] at h
  subst h
  constructor
  · show (frameCount : ℚ) / (fps : ℚ) = 25
    norm_num [fps, frameCount]
  · show (frameCount : ℚ) / (fps : ℚ) ≠ 24.75
    norm_num [fps, frameCount]

/-- Witness for C4 at the one-point input (0,0,25). -/
theorem builder_duration_25_witness :
    (ShowDocument.mk fps frameCount ((frameCount : ℚ) / (fps : ℚ))
        [Agent.mk 0 (Trajectory.mk ⟨0, 0, 25⟩ fps frameCount)]).durationSeconds = 25 ∧
    (ShowDocument.mk fps frameCount ((frameCount : ℚ) / (fps : ℚ))
        [Agent.mk 0 (Trajectory.mk ⟨0, 0, 25⟩ fps frameCount)]).durationSeconds ≠ 24.75 :=
  builder_duration_25 [⟨0, 0, 25⟩]
    (ShowDocument.mk fps frameCount ((frameCount : ℚ) / (fps : ℚ))
        [Agent.mk 0 (Trajectory.mk ⟨0, 0, 25⟩ fps frameCount)]) rfl

/-- C5: when every input point is the same point, the pipeline succeeds
(no division error can arise: all divisions are guarded), scaleXY is 1,
and every normalized agent sits at the target-volume center (0, 0, 25). -/
theorem degenerate_cloud_centers (p0 : Point3) (vs : List Point3) (path : String)
    (hne : vs ≠ []) (hall : ∀ p ∈ vs, p = p0) :
    computeBoundingBox vs = .ok ⟨p0.x, p0.x, p0.y, p0.y, p0.z, p0.z⟩ ∧
    scaleXYOf ⟨p0.x, p0.x, p0.y, p0.y, p0.z, p0.z⟩ targetVolume = 1 ∧
    (∀ q ∈ applyTransform
        (computeTransform ⟨p0.x, p0.x, p0.y, p0.y, p0.z, p0.z⟩ targetVolume) vs,
      q = ⟨0, 0, 25⟩) ∧
    (runPipeline vs [] path true).1 = .ok ⟨path, vs.length, 25⟩ := by
  have hbox := bbox_const p0 vs hne hall
  have htr := transform_const p0
  have hsxy : scaleXYOf ⟨p0.x, p0.x, p0.y, p0.y, p0.z, p0.z⟩ targetVolume = 1 :=
    congrArg NormalizationTransform.scaleXY htr
  refine ⟨hbox, hsxy, ?_, ?_⟩
  · intro q hq
    rw [htr] at hq
    obtain ⟨p, hp, rfl⟩ := List.mem_map.mp hq
    rw [hall p hp]
    show Point3.mk (1 * p0.x + -p0.x) (1 * p0.y + -p0.y) (0 * p0.z + 25) = ⟨0, 0, 25⟩
    simp only [Point3.mk.injEq]
    refine ⟨by ring, by ring, by ring⟩
  · have hsel : select vs [] = .ok ⟨vs, (List.range vs.length).map fun i => (i, i)⟩ := rfl
    have hne2 : (applyTransform (NormalizationTransform.mk 1 0 (-p0.x) (-p0.y) 25)
        vs).isEmpty = false := by
      cases vs with
      | nil => exact absurd rfl hne
      | cons a t2 => rfl
    simp only [runPipeline, hsel, hbox, htr]
    simp only [build, hne2, Bool.false_eq_true, if_false, pack, if_pos]
    simp [synthesize, applyTransform, List.enum_length, fps, frameCount]
    all_goals norm_num

/-- Witness for C5 at the single repeated point (3,4,5). -/
theorem degenerate_cloud_centers_witness :
    scaleXYOf ⟨3, 3, 4, 4, 5, 5⟩ targetVolume = 1 ∧
    (runPipeline [Point3.mk 3 4 5] [] "out.skyc" true).1 = .ok ⟨"out.skyc", 1, 25⟩ := by
  have h := degenerate_cloud_centers ⟨3, 4, 5⟩ [⟨3, 4, 5⟩] "out.skyc" (by decide) (by decide)
  exact ⟨h.2.1, h.2.2.2⟩

/-- C6: an empty point set makes computeBoundingBox fail with EmptyInput,
the pipeline surfaces that error, and no file is written. -/
theorem empty_input_fails (path : String) (io : Bool) :
    computeBoundingBox [] = .error .emptyInput ∧
    (runPipeline [] [] path io).1 = .error .emptyInput ∧
    (runPipeline [] [] path io).2.1 = [] :=
  ⟨rfl, rfl, rfl⟩

/-- C7: whenever the pipeline fails, no file is left at outputPath and
the executed stages are a prefix of the canonical stage order — each
stage ran at most once (no retry) and nothing ran past the failure. -/
theorem pipeline_fail_fast (v : List Point3) (f : List (List ℕ)) (path : String)
    (io : Bool) (e : PipeError) (h : (runPipeline v f path io).1 = .error e) :
    (runPipeline v f path io).2.1 = [] ∧
    ∃ rest, (runPipeline v f path io).2.2 ++ rest = allStages := by
  rcases hs : select v f with e1 | sel
  · constructor
    · simp only [runPipeline, hs]
    · simp only [runPipeline, hs]
      exact ⟨[.normalizeStage, .buildStage, .packStage], rfl⟩
  · rcases hb : computeBoundingBox sel.usedVertices with e2 | box
    · constructor
      · simp only [runPipeline, hs, hb]
      · simp only [runPipeline, hs, hb]
        exact ⟨[.buildStage, .packStage], rfl⟩
    · rcases hbl : build (applyTransform (computeTransform box targetVolume)
          sel.usedVertices) fps frameCount with e3 | doc
      · constructor
        · simp only [runPipeline, hs, hb, hbl]
        · simp only [runPipeline, hs, hb, hbl]
          exact ⟨[.packStage], rfl⟩
      · cases io with
        | true =>
            simp only [runPipeline, hs, hb, hbl, pack, if_pos] at h
            exact Except.noConfusion h
        | false =>
            constructor
            · simp only [runPipeline, hs, hb, hbl, pack, Bool.false_eq_true, if_false]
            · simp only [runPipeline, hs, hb, hbl, pack, Bool.false_eq_true, if_false]
              exact ⟨[], rfl⟩

/-- Witness for C7: the empty-input failure leaves no file and stops
after the normalize stage. -/
theorem pipeline_fail_fast_witness :
    (runPipeline [] [] "a.skyc" true).2.1 = [] ∧
    ∃ rest, (runPipeline [] [] "a.skyc" true).2.2 ++ rest = allStages :=
  pipeline_fail_fast [] [] "a.skyc" true .emptyInput rfl

/-- C3 counterexample: at a concrete successful export the handler's
success object has exactly the keys success, filename, message — it does
not contain agentCount or durationSeconds, so the claim as stated is
false on the code of server.js lines 81-86. -/
theorem export_response_missing_summary_fields :
    (exportSuccessResponse "/srv/output/vertices_show.skyc" "vertices_show.skyc" 8).map
        Prod.fst = ["success", "filename", "message"] ∧
    "agentCount" ∉ (exportSuccessResponse "/srv/output/vertices_show.skyc"
        "vertices_show.skyc" 8).map Prod.fst ∧
    "durationSeconds" ∉ (exportSuccessResponse "/srv/output/vertices_show.skyc"
        "vertices_show.skyc" 8).map Prod.fst := by
  refine ⟨rfl, ?_, ?_⟩ <;> decide

/-- C3 (amended): on every successful export the object handed to the
boundary layer contains success: true, filename: the absolute path
written, and a human-readable message with the vertex count; it contains
no agentCount and no durationSeconds field. -/
theorem export_response_fields (outputPath outputFile : String) (n : ℕ) :
    (exportSuccessResponse outputPath outputFile n).lookup "success" =
      some (.bool true) ∧
    (exportSuccessResponse outputPath outputFile n).lookup "filename" =
      some (.str outputPath) ∧
    (exportSuccessResponse outputPath outputFile n).lookup "message" =
      some (.str ("Exported " ++ toString n ++ " vertices to output/" ++ outputFile)) ∧
    (exportSuccessResponse outputPath outputFile n).lookup "agentCount" = none ∧
    (exportSuccessResponse outputPath outputFile n).lookup "durationSeconds" = none := by
  refine ⟨rfl, ?_, ?_, ?_, ?_⟩ <;> rfl

/-- C8: an absent or empty outputFilename yields exactly
vertices_show.skyc; a non-empty supplied filename is used as given. -/
theorem default_output_filename (filename : Option String) :
    ((filename = none ∨ filename = some "") →
      outputFileOf filename = "vertices_show.skyc") ∧
    (∀ s, filename = some s → s ≠ "" → outputFileOf filename = s) := by
  constructor
  · rintro (rfl | rfl) <;> rfl
  · rintro s rfl hs
    exact if_neg hs

/-- Witness for C8: the default on none and a supplied name. -/
theorem default_output_filename_witness :
    outputFileOf none = "vertices_show.skyc" ∧
    outputFileOf (some "cube.skyc") = "cube.skyc" :=
  ⟨(default_output_filename none).1 (Or.inl rfl),
   (default_output_filename (some "cube.skyc")).2 "cube.skyc" rfl (by decide)⟩

/-- C9: when the external library succeeds, generatePolyhedron returns
an object whose name is the library result's name, whose vertices are
its positions and whose faces are its cells, unaltered. -/
theorem generate_preserves_library_fields (conway : String → Option ConwayResult)
    (s : String) (r : ConwayResult) (h : conway s = some r) :
    generatePolyhedron conway s = some ⟨r.name, r.positions, r.cells⟩ := by
  simp [generatePolyhedron, h]

/-- Witness for C9 on the stub library. -/
theorem generate_preserves_library_fields_witness :
    generatePolyhedron conwayCubeStub "C" =
      some ⟨"cube", [⟨1, 1, 1⟩, ⟨-1, -1, -1⟩], [[0, 1]]⟩ :=
  generate_preserves_library_fields conwayCubeStub "C"
    ⟨"cube", [⟨1, 1, 1⟩, ⟨-1, -1, -1⟩], [[0, 1]]⟩ rfl

/-- C10: a request body that is not valid JSON yields an error response
and the export subprocess is never started, and a success response is
returned only when the subprocess run reports no error. -/
theorem export_handler_guard (outputDir : String) (execRun : ExecOutcome) :
    (handleExport outputDir none execRun).2 = false ∧
    (handleExport outputDir none execRun).1 =
      .errorResp 400 "Unexpected token in JSON" ∧
    (∀ parsed fields, (handleExport outputDir parsed execRun).1 = .successResp fields →
      ∃ out, execRun = .execOk out) := by
  refine ⟨rfl, rfl, ?_⟩
  intro parsed fields h
  rcases parsed with _ | body
  · exact absurd h (by simp [handleExport])
  · rcases hr : execRun with st | out
    · rw [hr] at h
      exact absurd h (by simp [handleExport])
    · exact ⟨out, rfl⟩

/-- Witness for C10: a parse failure with a hypothetically succeeding
subprocess, and a successful run instantiating the success conjunct. -/
theorem export_handler_guard_witness :
    (handleExport "/srv/output" none (.execOk "done")).2 = false ∧
    ∃ out, ExecOutcome.execOk "done" = ExecOutcome.execOk out := by
  refine ⟨(export_handler_guard "/srv/output" (.execOk "done")).1, ?_⟩
  exact (export_handler_guard "/srv/output" (.execOk "done")).2.2 (some ⟨[], none⟩)
    (exportSuccessResponse ("/srv/output" ++ "/" ++ "vertices_show.skyc")
      "vertices_show.skyc" 0) rfl
